import Mathlib

/-!
Verification of the rates-simulator fee engine.

Shallow embedding of `app/config.py`, `app/models.py`,
`app/services/storage.py`, `app/services/inbound.py`,
`app/services/outbound.py` and the sales-simulation quantity rule of
`app/main.py`.  Python floats are modelled as rationals (`ℚ`), Python ints
as `ℤ`; in-place mutation of dataclass fields is modelled by returning
updated records; the `while` loop of `_calc_tiers_fee` is modelled with an
explicit fuel parameter (`none` = loop still running when fuel runs out),
and fuel adequacy is proved where the tier thresholds are positive.
-/

namespace RatesSim

/-- `models.Size` (enum S/M/L/XL). -/
inductive Size where
  | S | M | L | XL
deriving DecidableEq, Repr

/-- `models.Product`: master product data.  `product_id` is caller-supplied
(the uuid default is not modelled); `vol` and `vol_weight` are the cached
derived fields. -/
structure Product where
  product_name : String
  weight : ℚ
  height : ℚ
  width : ℚ
  depth : ℚ
  product_id : String
  vol_weight : ℚ := 0
  vol : ℚ := 0
deriving DecidableEq, Repr

/-- `models.ReceivedProduct`: one inbound line. -/
structure ReceivedProduct where
  product : Product
  quantity_received : ℤ
  total_inbound_fee : ℚ := 0
  total_storage_fee : ℚ := 0
  vol_to_store : ℚ := 0
  large_strg_flag : Bool := false
deriving DecidableEq, Repr

/-- `models.InitialInventory`.  In the source `size` starts as `None` and is
always assigned by `assign_size` before being read; the pre-assignment
`None` state is not modelled (the field defaults to `S`). -/
structure InitialInventory where
  received_products : List ReceivedProduct
  total_inbound_cost_for_batch : ℚ := 0
  total_storage_cost_for_batch : ℚ := 0
  size : Size := Size.S
deriving DecidableEq, Repr

/-- `config.Settings` (NamedTuple): exactly the fields the source declares.
`int` fields become `ℤ`, `float` fields become `ℚ`; the `IN_TIERS` dict
keyed by `Size` becomes a total function on `Size`. -/
structure Settings where
  STRG_VOL_LIMIT : ℤ
  STRG_UNIT_VOL : ℤ
  STRG_RATE_REG : ℚ
  STRG_RATE_LRG : ℚ
  M_VOL_WEIGHT_LIMIT_IN : ℤ
  L_VOL_WEIGHT_LIMIT_IN : ℤ
  XL_VOL_WEIGHT_LIMIT_IN : ℤ
  S_VOL_WEIGHT_LIMIT_OUT : ℤ
  M_VOL_WEIGHT_LIMIT_OUT : ℤ
  L_VOL_WEIGHT_LIMIT_OUT : ℤ
  IN_VOL_WEIGHT_LIMIT : ℤ
  S_RATE_IN : ℚ
  M_RATE_IN : ℚ
  L_RATE_IN : ℚ
  XL_RATE_IN : ℚ
  S_RATE_OUT : ℚ
  M_RATE_OUT : ℚ
  L_RATE_OUT : ℚ
  XL_RATE_OUT : ℚ
  DIVISOR : ℤ
  IN_TIERS : Size → ℤ × ℚ

/-- The raw environment values read by `config.get_settings` via
`os.getenv` (already converted by `int(...)` / `float(...)`). -/
structure EnvConfig where
  M_VOL_WEIGHT_LIMIT_IN : ℤ
  L_VOL_WEIGHT_LIMIT_IN : ℤ
  XL_VOL_WEIGHT_LIMIT_IN : ℤ
  S_RATE_IN : ℚ
  M_RATE_IN : ℚ
  L_RATE_IN : ℚ
  XL_RATE_IN : ℚ
  STRG_VOL_LIMIT : ℤ
  STRG_UNIT_VOL : ℤ
  STRG_RATE_REG : ℚ
  STRG_RATE_LRG : ℚ
  IN_VOL_WEIGHT_LIMIT : ℤ
  S_VOL_WEIGHT_LIMIT_OUT : ℤ
  M_VOL_WEIGHT_LIMIT_OUT : ℤ
  L_VOL_WEIGHT_LIMIT_OUT : ℤ
  S_RATE_OUT : ℚ
  M_RATE_OUT : ℚ
  L_RATE_OUT : ℚ
  XL_RATE_OUT : ℚ
  DIVISOR : ℤ

/-- `config.get_settings`: builds the `Settings` record from the
environment.  Note the source maps `Size.M` in `IN_TIERS` to
`(M_VOL_WEIGHT_LIMIT_IN, S_RATE_IN)` — the S rate, not the M rate. -/
def get_settings (env : EnvConfig) : Settings :=
  { STRG_VOL_LIMIT := env.STRG_VOL_LIMIT
    STRG_UNIT_VOL := env.STRG_UNIT_VOL
    STRG_RATE_REG := env.STRG_RATE_REG
    STRG_RATE_LRG := env.STRG_RATE_LRG
    M_VOL_WEIGHT_LIMIT_IN := env.M_VOL_WEIGHT_LIMIT_IN
    L_VOL_WEIGHT_LIMIT_IN := env.L_VOL_WEIGHT_LIMIT_IN
    XL_VOL_WEIGHT_LIMIT_IN := env.XL_VOL_WEIGHT_LIMIT_IN
    S_VOL_WEIGHT_LIMIT_OUT := env.S_VOL_WEIGHT_LIMIT_OUT
    M_VOL_WEIGHT_LIMIT_OUT := env.M_VOL_WEIGHT_LIMIT_OUT
    L_VOL_WEIGHT_LIMIT_OUT := env.L_VOL_WEIGHT_LIMIT_OUT
    IN_VOL_WEIGHT_LIMIT := env.IN_VOL_WEIGHT_LIMIT
    S_RATE_IN := env.S_RATE_IN
    M_RATE_IN := env.M_RATE_IN
    L_RATE_IN := env.L_RATE_IN
    XL_RATE_IN := env.XL_RATE_IN
    S_RATE_OUT := env.S_RATE_OUT
    M_RATE_OUT := env.M_RATE_OUT
    L_RATE_OUT := env.L_RATE_OUT
    XL_RATE_OUT := env.XL_RATE_OUT
    DIVISOR := env.DIVISOR
    IN_TIERS := fun sz =>
      match sz with
      | Size.S => (0, env.S_RATE_IN)
      | Size.M => (env.M_VOL_WEIGHT_LIMIT_IN, env.S_RATE_IN)
      | Size.L => (env.L_VOL_WEIGHT_LIMIT_IN, env.L_RATE_IN)
      | Size.XL => (env.XL_VOL_WEIGHT_LIMIT_IN, env.XL_RATE_IN) }

/-- `Settings.get_in_rate_by_size`: second component of the `IN_TIERS`
entry. -/
def Settings.get_in_rate_by_size (s : Settings) (size : Size) : ℚ :=
  (s.IN_TIERS size).2

/-- One step of the stable descending insertion used to model Python's
stable `sorted(..., reverse=True)` on the three outbound tiers: an element
is placed before the first strictly smaller key, after equal keys. -/
def insertDesc (x : ℤ × ℚ) : List (ℤ × ℚ) → List (ℤ × ℚ)
  | [] => [x]
  | y :: ys => if y.1 < x.1 then x :: y :: ys else y :: insertDesc x ys

/-- `Settings.sorted_tiers`: the three `(threshold, rate)` outbound tiers,
sorted in descending threshold order (stable). -/
def Settings.sorted_tiers (s : Settings) : List (ℤ × ℚ) :=
  insertDesc (s.S_VOL_WEIGHT_LIMIT_OUT, s.S_RATE_OUT)
    (insertDesc (s.M_VOL_WEIGHT_LIMIT_OUT, s.M_RATE_OUT)
      (insertDesc (s.L_VOL_WEIGHT_LIMIT_OUT, s.L_RATE_OUT) []))

/-- `outbound.compute_outbound` reads the attribute
`s.XL_VOL_WEIGHT_LIMIT_OUT`, which `config.Settings` does not declare
(Python looks it up dynamically on the passed object).  The schedule
actually consumed by the outbound pricer is therefore modelled as an
extension of `Settings` carrying that extra field. -/
structure OutSettings extends Settings where
  XL_VOL_WEIGHT_LIMIT_OUT : ℤ

/-! ## storage.py -/

/-- `storage.BillingInfo` (NamedTuple). -/
structure BillingInfo where
  shelves : ℤ
  price : ℚ
deriving DecidableEq, Repr

/-- Body of the loop of
`storage.compute_strg_vol_and_flag_for_received_products` for one line:
sets `vol_to_store = product.vol * quantity_received * 1.3` and the
large-storage flag (`vol_to_store < STRG_VOL_LIMIT` means regular). -/
def strgVolAndFlagLine (s : Settings) (rp : ReceivedProduct) : ReceivedProduct :=
  let v := rp.product.vol * (rp.quantity_received : ℚ) * (13 / 10)
  if v < (s.STRG_VOL_LIMIT : ℚ) then
    { rp with vol_to_store := v, large_strg_flag := false }
  else
    { rp with vol_to_store := v, large_strg_flag := true }

/-- `storage.compute_strg_vol_and_flag_for_received_products`: annotates
every line and returns `(annotated lines, regular_vol_sum, large_vol_sum)`
(the in-place mutation is modelled by returning the updated list). -/
def compute_strg_vol_and_flag_for_received_products
    (received_products : List ReceivedProduct) (s : Settings) :
    List ReceivedProduct × ℚ × ℚ :=
  let out := received_products.map (strgVolAndFlagLine s)
  (out,
   ((out.filter (fun rp => !rp.large_strg_flag)).map (fun rp => rp.vol_to_store)).sum,
   ((out.filter (fun rp => rp.large_strg_flag)).map (fun rp => rp.vol_to_store)).sum)

/-- `storage.compute_shelves`. -/
def compute_shelves (volume : ℚ) (s : Settings) : ℤ :=
  if volume = 0 then 0 else ⌈volume / (s.STRG_UNIT_VOL : ℚ)⌉

/-- `storage.compute_price_of_shelves`. -/
def compute_price_of_shelves (shelves : ℤ) (large : Bool) (s : Settings) : ℚ :=
  (shelves : ℚ) * (if large then s.STRG_RATE_LRG else s.STRG_RATE_REG)

/-- The two `if reg_vol > 0 / if large_vol > 0` blocks of
`storage.get_storage_fees`, building the `BillingInfo` of one pool. -/
def pool_billing (vol : ℚ) (large : Bool) (s : Settings) : BillingInfo :=
  if 0 < vol then
    let sh := compute_shelves vol s
    { shelves := sh, price := compute_price_of_shelves sh large s }
  else
    { shelves := 0, price := 0 }

/-- The per-pool fee list computed by the loops of
`storage.compute_prorata_for_received_products`: walks the pool's
`vol_to_store` values; while `0 < total` every line but the last gets
`v / total * price` and the last gets the running remainder; with
`total ≤ 0` every line gets `0`. -/
def prorataFees (vols : List ℚ) (total price remaining : ℚ) : List ℚ :=
  match vols with
  | [] => []
  | v :: rest =>
    if 0 < total then
      let f := if rest.isEmpty then remaining else v / total * price
      f :: prorataFees rest total price (remaining - f)
    else
      0 :: prorataFees rest total price remaining

/-- Re-attaches the per-pool fee lists to the original (interleaved) list:
each line consumes the next fee of its own pool's list, in order.  This
models the Python in-place writes through the two filtered views. -/
def assignFeesByFlag : List ReceivedProduct → List ℚ → List ℚ → List ReceivedProduct
  | [], _, _ => []
  | rp :: rest, regFees, largeFees =>
    if rp.large_strg_flag then
      { rp with total_storage_fee := largeFees.headD rp.total_storage_fee } ::
        assignFeesByFlag rest regFees largeFees.tail
    else
      { rp with total_storage_fee := regFees.headD rp.total_storage_fee } ::
        assignFeesByFlag rest regFees.tail largeFees

/-- `storage.compute_prorata_for_received_products`: filters the two pool
views, recomputes each pool's actual volume sum, and assigns the prorated
fees (last line of a pool absorbs the remainder). -/
def compute_prorata_for_received_products
    (received_products : List ReceivedProduct)
    (regular_info large_info : BillingInfo) (_s : Settings) :
    List ReceivedProduct :=
  let regular_products := received_products.filter (fun rp => !rp.large_strg_flag)
  let large_products := received_products.filter (fun rp => rp.large_strg_flag)
  let total_actual_regular_vol := (regular_products.map (fun rp => rp.vol_to_store)).sum
  let total_actual_large_vol := (large_products.map (fun rp => rp.vol_to_store)).sum
  assignFeesByFlag received_products
    (prorataFees (regular_products.map (fun rp => rp.vol_to_store))
      total_actual_regular_vol regular_info.price regular_info.price)
    (prorataFees (large_products.map (fun rp => rp.vol_to_store))
      total_actual_large_vol large_info.price large_info.price)

/-- `storage.get_storage_fees` (orchestrator): flag and partition, bill each
pool, prorate back, return `(annotated lines, reg price + large price)`. -/
def get_storage_fees (received_products : List ReceivedProduct) (s : Settings) :
    List ReceivedProduct × ℚ :=
  let step1 := compute_strg_vol_and_flag_for_received_products received_products s
  let reg_info := pool_billing step1.2.1 false s
  let large_info := pool_billing step1.2.2 true s
  (compute_prorata_for_received_products step1.1 reg_info large_info s,
   reg_info.price + large_info.price)

/-! ## inbound.py -/

/-- The aggregate `vol_weight * quantity_received` sum of
`inbound.assign_size`. -/
def total_vol_weight_in (received_products : List ReceivedProduct) : ℚ :=
  (received_products.map (fun rp => rp.product.vol_weight * (rp.quantity_received : ℚ))).sum

/-- `inbound.assign_size`: strictly-greater-than checks from the largest
boundary down.  The module-level `get_settings()` call is modelled by the
explicit `s` parameter. -/
def assign_size (initial_inventory : InitialInventory) (s : Settings) : InitialInventory :=
  let t := total_vol_weight_in initial_inventory.received_products
  if (s.XL_VOL_WEIGHT_LIMIT_IN : ℚ) < t then
    { initial_inventory with size := Size.XL }
  else if (s.L_VOL_WEIGHT_LIMIT_IN : ℚ) < t then
    { initial_inventory with size := Size.L }
  else if (s.M_VOL_WEIGHT_LIMIT_IN : ℚ) < t then
    { initial_inventory with size := Size.M }
  else
    { initial_inventory with size := Size.S }

/-- `inbound.compute_inbound_rates`: every line is priced at the batch's
bucket rate (`rate * quantity_received * vol_weight`); the batch total is
the sum of the line fees. -/
def compute_inbound_rates (initial_inventory : InitialInventory) (s : Settings) :
    InitialInventory :=
  let rate := s.get_in_rate_by_size initial_inventory.size
  let out := initial_inventory.received_products.map (fun rp =>
    { rp with total_inbound_fee :=
        rate * (rp.quantity_received : ℚ) * rp.product.vol_weight })
  { initial_inventory with
      received_products := out
      total_inbound_cost_for_batch := ((out.map (fun rp => rp.total_inbound_fee)).sum) }

/-! ## outbound.py -/

/-- Fuel bound for the `while remaining > 0` loop of
`outbound._calc_tiers_fee`: when every applied tier subtracts at least `1`
from `remaining`, `⌈remaining⌉` (clamped at `0`) iterations suffice. -/
def tiersFuel (remaining : ℚ) : ℕ := (max 0 ⌈remaining⌉).toNat

/-- The `while remaining > 0` loop body of `outbound._calc_tiers_fee`,
with explicit state `(prev_weight, fee, remaining)` and a fuel parameter:
scan the descending tiers for the first with `remaining ≥ threshold`; on a
hit add its rate, subtract the previous threshold, make it the new
previous, and restart the scan; on a miss add the smallest (last) tier's
rate and stop.  `none` means the fuel ran out with the loop still running
(and, on an empty tier list, the `tiers[-1]` IndexError of the source). -/
def calcTiersFeeAux (tiers : List (ℤ × ℚ)) :
    ℕ → ℤ → ℚ → ℚ → Option ℚ
  | 0, _, fee, remaining => if 0 < remaining then none else some fee
  | fuel + 1, prev_weight, fee, remaining =>
    if 0 < remaining then
      match tiers.find? (fun t => decide ((t.1 : ℚ) ≤ remaining)) with
      | some t => calcTiersFeeAux tiers fuel t.1 (fee + t.2) (remaining - (prev_weight : ℚ))
      | none =>
        match tiers.getLast? with
        | some tl => some (fee + tl.2)
        | none => none
    else some fee

/-- `outbound._calc_tiers_fee`: run the tier loop with the hard-coded seed
`prev_weight = 55` and fee `0.0`. -/
def calc_tiers_fee (remaining : ℚ) (s : Settings) : Option ℚ :=
  calcTiersFeeAux s.sorted_tiers (tiersFuel remaining) 55 0 remaining

/-- `outbound.compute_outbound`: flat bands (with the hard-coded boundaries
`5`, `15`, `55`) below `XL_VOL_WEIGHT_LIMIT_OUT`, else
`full_chunks * XL_RATE_OUT` plus the tiered fee of the remainder.
Python's `ZeroDivisionError` on a zero limit is not modelled (claims
assume a positive limit). -/
def compute_outbound (vol_weight : ℚ) (s : OutSettings) : Option ℚ :=
  let limit := s.XL_VOL_WEIGHT_LIMIT_OUT
  let xl := s.XL_RATE_OUT
  if vol_weight < (limit : ℚ) then
    if vol_weight < 5 then some s.S_RATE_OUT
    else if vol_weight < 15 then some s.M_RATE_OUT
    else if vol_weight < 55 then some s.L_RATE_OUT
    else some s.XL_RATE_OUT
  else
    let full_chunks : ℤ := ⌊vol_weight / (limit : ℚ)⌋
    let fee := (full_chunks : ℚ) * xl
    let remaining_vol_weight := vol_weight - (full_chunks : ℚ) * (limit : ℚ)
    (calc_tiers_fee remaining_vol_weight s.toSettings).map (fun t => fee + t)

/-- Spec-side iteration for the tiered chunk-remainder fee, written from
the claim's words with the three tiers `(t1,r1) (t2,r2) (t3,r3)` given
explicitly in descending threshold order and an explicit seed: scan from
the highest tier; on a hit add the rate, subtract the previous threshold,
record the hit tier as previous, restart; on a miss add the smallest-tier
rate and stop.  Same fuel discipline as `calcTiersFeeAux`. -/
def tiers_fee_claim (t1 t2 t3 : ℤ) (r1 r2 r3 : ℚ) :
    ℕ → ℤ → ℚ → ℚ → Option ℚ
  | 0, _, fee, remaining => if 0 < remaining then none else some fee
  | fuel + 1, prev, fee, remaining =>
    if 0 < remaining then
      if (t1 : ℚ) ≤ remaining then
        tiers_fee_claim t1 t2 t3 r1 r2 r3 fuel t1 (fee + r1) (remaining - (prev : ℚ))
      else if (t2 : ℚ) ≤ remaining then
        tiers_fee_claim t1 t2 t3 r1 r2 r3 fuel t2 (fee + r2) (remaining - (prev : ℚ))
      else if (t3 : ℚ) ≤ remaining then
        tiers_fee_claim t1 t2 t3 r1 r2 r3 fuel t3 (fee + r3) (remaining - (prev : ℚ))
      else some (fee + r3)
    else some fee

/-- Spec-side flat-band lookup, written from the claim's words: band
boundaries supplied as the configuration fields
`S/M/L_VOL_WEIGHT_LIMIT_OUT` (to be compared against the source, which
hard-codes `5`, `15`, `55`). -/
def outbound_band_fee_claim (vol_weight : ℚ) (s : OutSettings) : ℚ :=
  if vol_weight < (s.S_VOL_WEIGHT_LIMIT_OUT : ℚ) then s.S_RATE_OUT
  else if vol_weight < (s.M_VOL_WEIGHT_LIMIT_OUT : ℚ) then s.M_RATE_OUT
  else if vol_weight < (s.L_VOL_WEIGHT_LIMIT_OUT : ℚ) then s.L_RATE_OUT
  else s.XL_RATE_OUT

/-- Closed form of the inner band selector of the tier loop on the
reference tier thresholds `(55,15,5)`: `0` at `0`, smallest rate on
`(0,15)`, middle rate on `[15,∞)`. -/
def refTail (sr mr x : ℚ) : ℚ :=
  if x = 0 then 0 else if x < 15 then sr else mr

/-- Closed form of `_calc_tiers_fee` on the reference tier thresholds
`5 < 15 < 55`: `⌊r/55⌋` top-tier rates plus the band selector of the
residue. -/
def refTiersFee (sr mr lr r : ℚ) : ℚ :=
  if r ≤ 0 then 0
  else (⌊r / 55⌋ : ℚ) * lr + refTail sr mr (r - 55 * (⌊r / 55⌋ : ℚ))

/-- Total closed form of `compute_outbound` on reference tier thresholds:
the literal band lookup below the limit, else `⌊w/limit⌋` XL rates plus
the closed-form tier fee of the remainder. -/
def outbound_total (w : ℚ) (s : OutSettings) : ℚ :=
  if w < (s.XL_VOL_WEIGHT_LIMIT_OUT : ℚ) then
    (if w < 5 then s.S_RATE_OUT else if w < 15 then s.M_RATE_OUT
     else if w < 55 then s.L_RATE_OUT else s.XL_RATE_OUT)
  else
    (⌊w / (s.XL_VOL_WEIGHT_LIMIT_OUT : ℚ)⌋ : ℚ) * s.XL_RATE_OUT
      + refTiersFee s.S_RATE_OUT s.M_RATE_OUT s.L_RATE_OUT
          (w - (⌊w / (s.XL_VOL_WEIGHT_LIMIT_OUT : ℚ)⌋ : ℚ)
            * (s.XL_VOL_WEIGHT_LIMIT_OUT : ℚ))

/-! ## main.py: sales-simulation quantity -/

/-- The `quantity_sold` computation of `main.process_order_simulation`
(`monthly_sales` branch): `math.floor` of `quantity_received *
sales_percentage` (an integer), then the source's guard
`if 0 < quantity_sold < 1: quantity_sold = 1` verbatim. -/
def simulated_quantity_sold (quantity_received : ℤ) (sales_percentage : ℚ) : ℤ :=
  let quantity_sold := ⌊(quantity_received : ℚ) * sales_percentage⌋
  if 0 < quantity_sold ∧ quantity_sold < 1 then 1 else quantity_sold

/-! ## Derived views of the storage output (used to state the claims) -/

/-- The regular-pool view of the annotated output of `get_storage_fees`. -/
def regular_pool (rps : List ReceivedProduct) (s : Settings) : List ReceivedProduct :=
  (get_storage_fees rps s).1.filter (fun rp => !rp.large_strg_flag)

/-- The large-pool view of the annotated output of `get_storage_fees`. -/
def large_pool (rps : List ReceivedProduct) (s : Settings) : List ReceivedProduct :=
  (get_storage_fees rps s).1.filter (fun rp => rp.large_strg_flag)

/-- Actual summed volume of a pool. -/
def pool_vol (pool : List ReceivedProduct) : ℚ :=
  (pool.map (fun rp => rp.vol_to_store)).sum

/-- Per-line storage fees of a pool, in order. -/
def pool_fees (pool : List ReceivedProduct) : List ℚ :=
  pool.map (fun rp => rp.total_storage_fee)

/-- The prorated shares of every pool line but the last:
`vol_to_store / pool_actual_volume_sum * price`. -/
def pool_shares (pool : List ReceivedProduct) (price : ℚ) : List ℚ :=
  ((pool.map (fun rp => rp.vol_to_store)).dropLast).map
    (fun v => v / pool_vol pool * price)

/-- The shelf fee billed to the regular pool. -/
def regular_pool_price (rps : List ReceivedProduct) (s : Settings) : ℚ :=
  (pool_billing (pool_vol (regular_pool rps s)) false s).price

/-- The shelf fee billed to the large pool. -/
def large_pool_price (rps : List ReceivedProduct) (s : Settings) : ℚ :=
  (pool_billing (pool_vol (large_pool rps s)) true s).price

/-! ## Concrete schedules and batches (inputs for witnesses and
counterexamples) -/

/-- A reference-shaped schedule: outbound tier thresholds `5 < 15 < 55`,
ascending outbound rates `1 ≤ 2 ≤ 3 ≤ 4`, inbound boundaries `10/20/30`. -/
def refSettings : Settings :=
  { STRG_VOL_LIMIT := 1000, STRG_UNIT_VOL := 10, STRG_RATE_REG := 2, STRG_RATE_LRG := 3,
    M_VOL_WEIGHT_LIMIT_IN := 10, L_VOL_WEIGHT_LIMIT_IN := 20, XL_VOL_WEIGHT_LIMIT_IN := 30,
    S_VOL_WEIGHT_LIMIT_OUT := 5, M_VOL_WEIGHT_LIMIT_OUT := 15, L_VOL_WEIGHT_LIMIT_OUT := 55,
    IN_VOL_WEIGHT_LIMIT := 100,
    S_RATE_IN := 1, M_RATE_IN := 2, L_RATE_IN := 3, XL_RATE_IN := 4,
    S_RATE_OUT := 1, M_RATE_OUT := 2, L_RATE_OUT := 3, XL_RATE_OUT := 4,
    DIVISOR := 5000, IN_TIERS := fun _ => (0, 0) }

/-- `refSettings` extended with a large-order limit of `55`. -/
def refOutSettings : OutSettings :=
  { refSettings with XL_VOL_WEIGHT_LIMIT_OUT := 55 }

/-- Schedule with ascending rates but a large remainder region
(`limit = 120`, `L_RATE_OUT = 10 = XL_RATE_OUT`): the tiered remainder fee
of a weight just below the limit exceeds one XL chunk rate. -/
def monoCexSettings : OutSettings :=
  { refSettings with
      L_RATE_OUT := 10, XL_RATE_OUT := 10, XL_VOL_WEIGHT_LIMIT_OUT := 120 }

/-- Schedule whose configured outbound band boundary fields
(`10/20/60`) differ from the literals `5/15/55` hard-coded in
`compute_outbound`. -/
def bandCexSettings : OutSettings :=
  { refSettings with
      S_VOL_WEIGHT_LIMIT_OUT := 10, M_VOL_WEIGHT_LIMIT_OUT := 20,
      L_VOL_WEIGHT_LIMIT_OUT := 60, XL_VOL_WEIGHT_LIMIT_OUT := 100 }

/-- Two demo products with precomputed volumes `10` and `30`. -/
def demoProduct1 : Product :=
  { product_name := "a", weight := 1, height := 1, width := 1, depth := 1,
    product_id := "p1", vol := 10 }

/-- Second demo product. -/
def demoProduct2 : Product :=
  { demoProduct1 with product_id := "p2", vol := 30 }

/-- A demo inbound batch of two lines (both land in the regular pool under
`refSettings`: `vol_to_store` 13 and 39). -/
def demoBatch : List ReceivedProduct :=
  [{ product := demoProduct1, quantity_received := 1 },
   { product := demoProduct2, quantity_received := 1 }]

/-- A demo inventory whose batch is `demoBatch`. -/
def demoInventory : InitialInventory :=
  { received_products := demoBatch }

/-- An environment whose `M_RATE_IN` (7) differs from `S_RATE_IN` (1). -/
def demoEnv : EnvConfig :=
  { M_VOL_WEIGHT_LIMIT_IN := 10, L_VOL_WEIGHT_LIMIT_IN := 20, XL_VOL_WEIGHT_LIMIT_IN := 30,
    S_RATE_IN := 1, M_RATE_IN := 7, L_RATE_IN := 3, XL_RATE_IN := 4,
    STRG_VOL_LIMIT := 1000, STRG_UNIT_VOL := 10, STRG_RATE_REG := 2, STRG_RATE_LRG := 3,
    IN_VOL_WEIGHT_LIMIT := 100,
    S_VOL_WEIGHT_LIMIT_OUT := 5, M_VOL_WEIGHT_LIMIT_OUT := 15, L_VOL_WEIGHT_LIMIT_OUT := 55,
    S_RATE_OUT := 1, M_RATE_OUT := 2, L_RATE_OUT := 3, XL_RATE_OUT := 4, DIVISOR := 5000 }

/-- A product with per-unit volumetric weight 10. -/
def demoBoundaryProduct : Product :=
  { demoProduct1 with product_id := "pb", vol_weight := 10 }

/-- One-line inventory whose total volumetric weight (10) equals the
M-limit of `refSettings`. -/
def demoBoundaryInventory : InitialInventory :=
  { received_products := [{ product := demoBoundaryProduct, quantity_received := 1 }] }

/-- A demo inventory already classified `M`. -/
def demoInventoryM : InitialInventory :=
  { received_products := demoBatch, size := Size.M }

/-! ## Storage lemmas -/

theorem prorataFees_length (vols : List ℚ) (total price : ℚ) :
    ∀ r, (prorataFees vols total price r).length = vols.length := by
  induction vols with
  | nil => intro r; rfl
  | cons v rest ih =>
    intro r
    by_cases ht : 0 < total <;> simp [prorataFees, ht, ih]

theorem prorataFees_nonpos (vols : List ℚ) (total price : ℚ)
    (ht : ¬ 0 < total) : ∀ r, prorataFees vols total price r = vols.map (fun _ => 0) := by
  induction vols with
  | nil => intro r; rfl
  | cons v rest ih => intro r; simp [prorataFees, ht, ih]

theorem prorataFees_closed (total price : ℚ) (ht : 0 < total) :
    ∀ vols r, vols ≠ [] →
      prorataFees vols total price r
        = (vols.dropLast.map (fun v => v / total * price))
          ++ [r - ((vols.dropLast.map (fun v => v / total * price)).sum)] := by
  intro vols
  induction vols with
  | nil => intro r h; exact absurd rfl h
  | cons v rest ih =>
    intro r _
    cases rest with
    | nil => simp [prorataFees, ht]
    | cons w rest' =>
      have hne : w :: rest' ≠ [] := by simp
      have hstep : prorataFees (v :: w :: rest') total price r
          = (v / total * price) ::
              prorataFees (w :: rest') total price (r - v / total * price) := by
        conv_lhs => rw [prorataFees]
        rw [if_pos ht]
        simp
      rw [hstep, ih _ hne]
      simp only [List.dropLast_cons₂, List.map_cons, List.sum_cons, List.cons_append,
        sub_sub]

theorem prorataFees_sum_pos (vols : List ℚ) (total price r : ℚ)
    (hne : vols ≠ []) (ht : 0 < total) :
    (prorataFees vols total price r).sum = r := by
  rw [prorataFees_closed total price ht vols r hne]
  simp

theorem assignFeesByFlag_map_product :
    ∀ (l : List ReceivedProduct) (rf lf : List ℚ),
      (assignFeesByFlag l rf lf).map (fun rp => rp.product)
        = l.map (fun rp => rp.product) := by
  intro l
  induction l with
  | nil => intro rf lf; rfl
  | cons rp rest ih =>
    intro rf lf
    cases hflag : rp.large_strg_flag <;>
      simp [assignFeesByFlag, hflag, ih]

theorem assignFeesByFlag_map_quantity :
    ∀ (l : List ReceivedProduct) (rf lf : List ℚ),
      (assignFeesByFlag l rf lf).map (fun rp => rp.quantity_received)
        = l.map (fun rp => rp.quantity_received) := by
  intro l
  induction l with
  | nil => intro rf lf; rfl
  | cons rp rest ih =>
    intro rf lf
    cases hflag : rp.large_strg_flag <;>
      simp [assignFeesByFlag, hflag, ih]

theorem assignFeesByFlag_map_inbound :
    ∀ (l : List ReceivedProduct) (rf lf : List ℚ),
      (assignFeesByFlag l rf lf).map (fun rp => rp.total_inbound_fee)
        = l.map (fun rp => rp.total_inbound_fee) := by
  intro l
  induction l with
  | nil => intro rf lf; rfl
  | cons rp rest ih =>
    intro rf lf
    cases hflag : rp.large_strg_flag <;>
      simp [assignFeesByFlag, hflag, ih]

theorem assignFeesByFlag_length :
    ∀ (l : List ReceivedProduct) (rf lf : List ℚ),
      (assignFeesByFlag l rf lf).length = l.length := by
  intro l
  induction l with
  | nil => intro rf lf; rfl
  | cons rp rest ih =>
    intro rf lf
    cases hflag : rp.large_strg_flag <;>
      simp [assignFeesByFlag, hflag, ih]

theorem assignFeesByFlag_filter_not :
    ∀ (l : List ReceivedProduct) (rf lf : List ℚ),
      rf.length = (l.filter (fun rp => !rp.large_strg_flag)).length →
      (assignFeesByFlag l rf lf).filter (fun rp => !rp.large_strg_flag)
        = List.zipWith (fun rp f => { rp with total_storage_fee := f })
            (l.filter (fun rp => !rp.large_strg_flag)) rf := by
  intro l
  induction l with
  | nil =>
    intro rf lf _
    simp [assignFeesByFlag]
  | cons rp rest ih =>
    intro rf lf hlen
    cases hflag : rp.large_strg_flag with
    | true =>
      simp [List.filter_cons, hflag] at hlen
      simp [assignFeesByFlag, List.filter_cons, hflag]
      exact ih rf lf.tail hlen
    | false =>
      simp [List.filter_cons, hflag] at hlen
      cases rf with
      | nil => simp at hlen
      | cons f rf' =>
        simp only [List.length_cons, Nat.succ.injEq] at hlen
        simp [assignFeesByFlag, List.filter_cons, hflag]
        exact ih rf' lf hlen

theorem assignFeesByFlag_filter_pos :
    ∀ (l : List ReceivedProduct) (rf lf : List ℚ),
      lf.length = (l.filter (fun rp => rp.large_strg_flag)).length →
      (assignFeesByFlag l rf lf).filter (fun rp => rp.large_strg_flag)
        = List.zipWith (fun rp f => { rp with total_storage_fee := f })
            (l.filter (fun rp => rp.large_strg_flag)) lf := by
  intro l
  induction l with
  | nil =>
    intro rf lf _
    simp [assignFeesByFlag]
  | cons rp rest ih =>
    intro rf lf hlen
    cases hflag : rp.large_strg_flag with
    | false =>
      simp [List.filter_cons, hflag] at hlen
      simp [assignFeesByFlag, List.filter_cons, hflag]
      exact ih rf.tail lf hlen
    | true =>
      simp [List.filter_cons, hflag] at hlen
      cases lf with
      | nil => simp at hlen
      | cons f lf' =>
        simp only [List.length_cons, Nat.succ.injEq] at hlen
        simp [assignFeesByFlag, List.filter_cons, hflag]
        exact ih rf lf' hlen

theorem zipWith_fee_map_fee :
    ∀ (pool : List ReceivedProduct) (fees : List ℚ), pool.length = fees.length →
      (List.zipWith (fun rp f => { rp with total_storage_fee := f }) pool fees).map
          (fun rp => rp.total_storage_fee) = fees := by
  intro pool
  induction pool with
  | nil =>
    intro fees h
    cases fees with
    | nil => rfl
    | cons f fs => simp at h
  | cons rp rest ih =>
    intro fees h
    cases fees with
    | nil => simp at h
    | cons f fs =>
      simp only [List.length_cons, Nat.succ.injEq] at h
      simp [ih fs h]

theorem zipWith_fee_map_vol :
    ∀ (pool : List ReceivedProduct) (fees : List ℚ), pool.length = fees.length →
      (List.zipWith (fun rp g => { rp with total_storage_fee := g }) pool fees).map
          (fun rp => rp.vol_to_store)
        = pool.map (fun rp => rp.vol_to_store) := by
  intro pool
  induction pool with
  | nil => intro fees _; simp
  | cons rp rest ih =>
    intro fees h
    cases fees with
    | nil => simp at h
    | cons q fs =>
      simp only [List.length_cons, Nat.succ.injEq] at h
      simp [ih fs h]

theorem compute_prorata_filter_not (l : List ReceivedProduct)
    (ri li : BillingInfo) (s : Settings) :
    (compute_prorata_for_received_products l ri li s).filter
        (fun rp => !rp.large_strg_flag)
      = List.zipWith (fun rp f => { rp with total_storage_fee := f })
          (l.filter (fun rp => !rp.large_strg_flag))
          (prorataFees
            ((l.filter (fun rp => !rp.large_strg_flag)).map (fun rp => rp.vol_to_store))
            (((l.filter (fun rp => !rp.large_strg_flag)).map (fun rp => rp.vol_to_store)).sum)
            ri.price ri.price) := by
  apply assignFeesByFlag_filter_not
  rw [prorataFees_length, List.length_map]

theorem compute_prorata_filter_pos (l : List ReceivedProduct)
    (ri li : BillingInfo) (s : Settings) :
    (compute_prorata_for_received_products l ri li s).filter
        (fun rp => rp.large_strg_flag)
      = List.zipWith (fun rp f => { rp with total_storage_fee := f })
          (l.filter (fun rp => rp.large_strg_flag))
          (prorataFees
            ((l.filter (fun rp => rp.large_strg_flag)).map (fun rp => rp.vol_to_store))
            (((l.filter (fun rp => rp.large_strg_flag)).map (fun rp => rp.vol_to_store)).sum)
            li.price li.price) := by
  apply assignFeesByFlag_filter_pos
  rw [prorataFees_length, List.length_map]

theorem storage_pools_spec (rps : List ReceivedProduct) (s : Settings) :
    pool_fees (regular_pool rps s)
      = prorataFees ((regular_pool rps s).map (fun rp => rp.vol_to_store))
          (pool_vol (regular_pool rps s))
          (regular_pool_price rps s) (regular_pool_price rps s)
  ∧ pool_fees (large_pool rps s)
      = prorataFees ((large_pool rps s).map (fun rp => rp.vol_to_store))
          (pool_vol (large_pool rps s))
          (large_pool_price rps s) (large_pool_price rps s)
  ∧ (get_storage_fees rps s).2 = regular_pool_price rps s + large_pool_price rps s := by
  have hout : (get_storage_fees rps s).1
      = compute_prorata_for_received_products (rps.map (strgVolAndFlagLine s))
          (pool_billing (((rps.map (strgVolAndFlagLine s)).filter
              (fun rp => !rp.large_strg_flag)).map (fun rp => rp.vol_to_store)).sum false s)
          (pool_billing (((rps.map (strgVolAndFlagLine s)).filter
              (fun rp => rp.large_strg_flag)).map (fun rp => rp.vol_to_store)).sum true s)
          s := rfl
  have hlen_r :
      ((rps.map (strgVolAndFlagLine s)).filter (fun rp => !rp.large_strg_flag)).length
        = (prorataFees (((rps.map (strgVolAndFlagLine s)).filter
              (fun rp => !rp.large_strg_flag)).map (fun rp => rp.vol_to_store))
            (((rps.map (strgVolAndFlagLine s)).filter
              (fun rp => !rp.large_strg_flag)).map (fun rp => rp.vol_to_store)).sum
            (pool_billing (((rps.map (strgVolAndFlagLine s)).filter
              (fun rp => !rp.large_strg_flag)).map (fun rp => rp.vol_to_store)).sum false s).price
            (pool_billing (((rps.map (strgVolAndFlagLine s)).filter
              (fun rp => !rp.large_strg_flag)).map (fun rp => rp.vol_to_store)).sum false s).price).length := by
    rw [prorataFees_length, List.length_map]
  have hlen_l :
      ((rps.map (strgVolAndFlagLine s)).filter (fun rp => rp.large_strg_flag)).length
        = (prorataFees (((rps.map (strgVolAndFlagLine s)).filter
              (fun rp => rp.large_strg_flag)).map (fun rp => rp.vol_to_store))
            (((rps.map (strgVolAndFlagLine s)).filter
              (fun rp => rp.large_strg_flag)).map (fun rp => rp.vol_to_store)).sum
            (pool_billing (((rps.map (strgVolAndFlagLine s)).filter
              (fun rp => rp.large_strg_flag)).map (fun rp => rp.vol_to_store)).sum true s).price
            (pool_billing (((rps.map (strgVolAndFlagLine s)).filter
              (fun rp => rp.large_strg_flag)).map (fun rp => rp.vol_to_store)).sum true s).price).length := by
    rw [prorataFees_length, List.length_map]
  have hreg : regular_pool rps s
      = List.zipWith (fun rp f => { rp with total_storage_fee := f })
          ((rps.map (strgVolAndFlagLine s)).filter (fun rp => !rp.large_strg_flag))
          (prorataFees (((rps.map (strgVolAndFlagLine s)).filter
              (fun rp => !rp.large_strg_flag)).map (fun rp => rp.vol_to_store))
            (((rps.map (strgVolAndFlagLine s)).filter
              (fun rp => !rp.large_strg_flag)).map (fun rp => rp.vol_to_store)).sum
            (pool_billing (((rps.map (strgVolAndFlagLine s)).filter
              (fun rp => !rp.large_strg_flag)).map (fun rp => rp.vol_to_store)).sum false s).price
            (pool_billing (((rps.map (strgVolAndFlagLine s)).filter
              (fun rp => !rp.large_strg_flag)).map (fun rp => rp.vol_to_store)).sum false s).price) := by
    unfold regular_pool
    rw [hout]
    exact compute_prorata_filter_not _ _ _ _
  have hlrg : large_pool rps s
      = List.zipWith (fun rp f => { rp with total_storage_fee := f })
          ((rps.map (strgVolAndFlagLine s)).filter (fun rp => rp.large_strg_flag))
          (prorataFees (((rps.map (strgVolAndFlagLine s)).filter
              (fun rp => rp.large_strg_flag)).map (fun rp => rp.vol_to_store))
            (((rps.map (strgVolAndFlagLine s)).filter
              (fun rp => rp.large_strg_flag)).map (fun rp => rp.vol_to_store)).sum
            (pool_billing (((rps.map (strgVolAndFlagLine s)).filter
              (fun rp => rp.large_strg_flag)).map (fun rp => rp.vol_to_store)).sum true s).price
            (pool_billing (((rps.map (strgVolAndFlagLine s)).filter
              (fun rp => rp.large_strg_flag)).map (fun rp => rp.vol_to_store)).sum true s).price) := by
    unfold large_pool
    rw [hout]
    exact compute_prorata_filter_pos _ _ _ _
  have hvol_r : (regular_pool rps s).map (fun rp => rp.vol_to_store)
      = ((rps.map (strgVolAndFlagLine s)).filter
          (fun rp => !rp.large_strg_flag)).map (fun rp => rp.vol_to_store) := by
    rw [hreg]
    exact zipWith_fee_map_vol _ _ hlen_r
  have hvol_l : (large_pool rps s).map (fun rp => rp.vol_to_store)
      = ((rps.map (strgVolAndFlagLine s)).filter
          (fun rp => rp.large_strg_flag)).map (fun rp => rp.vol_to_store) := by
    rw [hlrg]
    exact zipWith_fee_map_vol _ _ hlen_l
  have hpv_r : pool_vol (regular_pool rps s)
      = (((rps.map (strgVolAndFlagLine s)).filter
          (fun rp => !rp.large_strg_flag)).map (fun rp => rp.vol_to_store)).sum := by
    unfold pool_vol
    rw [hvol_r]
  have hpv_l : pool_vol (large_pool rps s)
      = (((rps.map (strgVolAndFlagLine s)).filter
          (fun rp => rp.large_strg_flag)).map (fun rp => rp.vol_to_store)).sum := by
    unfold pool_vol
    rw [hvol_l]
  have hprice_r : regular_pool_price rps s
      = (pool_billing (((rps.map (strgVolAndFlagLine s)).filter
          (fun rp => !rp.large_strg_flag)).map (fun rp => rp.vol_to_store)).sum false s).price := by
    unfold regular_pool_price
    rw [hpv_r]
  have hprice_l : large_pool_price rps s
      = (pool_billing (((rps.map (strgVolAndFlagLine s)).filter
          (fun rp => rp.large_strg_flag)).map (fun rp => rp.vol_to_store)).sum true s).price := by
    unfold large_pool_price
    rw [hpv_l]
  refine ⟨?_, ?_, ?_⟩
  · unfold pool_fees
    rw [hvol_r, hpv_r, hprice_r, hreg]
    exact zipWith_fee_map_fee _ _ hlen_r
  · unfold pool_fees
    rw [hvol_l, hpv_l, hprice_l, hlrg]
    exact zipWith_fee_map_fee _ _ hlen_l
  · rw [hprice_r, hprice_l]
    rfl

/-- C1: `get_storage_fees` partitions the annotated lines into the regular
and the large pool; whenever a pool's actual summed volume is positive,
its per-line fees are exactly the prorated shares
`vol_to_store / pool_volume * pool_price` for every line but the last,
with the last line receiving the exact remainder; each pool's fees sum to
that pool's shelf fee, and the returned batch total is the sum of the two
pool shelf fees. -/
theorem get_storage_fees_prorata_exact (rps : List ReceivedProduct) (s : Settings) :
    (0 < pool_vol (regular_pool rps s) →
       pool_fees (regular_pool rps s)
         = pool_shares (regular_pool rps s) (regular_pool_price rps s)
           ++ [regular_pool_price rps s
                - (pool_shares (regular_pool rps s) (regular_pool_price rps s)).sum])
  ∧ (0 < pool_vol (large_pool rps s) →
       pool_fees (large_pool rps s)
         = pool_shares (large_pool rps s) (large_pool_price rps s)
           ++ [large_pool_price rps s
                - (pool_shares (large_pool rps s) (large_pool_price rps s)).sum])
  ∧ (pool_fees (regular_pool rps s)).sum = regular_pool_price rps s
  ∧ (pool_fees (large_pool rps s)).sum = large_pool_price rps s
  ∧ (get_storage_fees rps s).2 = regular_pool_price rps s + large_pool_price rps s := by
  obtain ⟨hr, hl, htot⟩ := storage_pools_spec rps s
  have hvols_r : ∀ (hv : 0 < pool_vol (regular_pool rps s)),
      (regular_pool rps s).map (fun rp => rp.vol_to_store) ≠ [] := by
    intro hv hnil
    rw [show pool_vol (regular_pool rps s)
        = ((regular_pool rps s).map (fun rp => rp.vol_to_store)).sum from rfl, hnil] at hv
    simp at hv
  have hvols_l : ∀ (hv : 0 < pool_vol (large_pool rps s)),
      (large_pool rps s).map (fun rp => rp.vol_to_store) ≠ [] := by
    intro hv hnil
    rw [show pool_vol (large_pool rps s)
        = ((large_pool rps s).map (fun rp => rp.vol_to_store)).sum from rfl, hnil] at hv
    simp at hv
  refine ⟨?_, ?_, ?_, ?_, ?_⟩
  · intro hv
    rw [hr, prorataFees_closed _ _ hv _ _ (hvols_r hv)]
    rfl
  · intro hv
    rw [hl, prorataFees_closed _ _ hv _ _ (hvols_l hv)]
    rfl
  · by_cases hv : 0 < pool_vol (regular_pool rps s)
    · rw [hr, prorataFees_sum_pos _ _ _ _ (hvols_r hv) hv]
    · rw [hr, prorataFees_nonpos _ _ _ hv]
      have hp : regular_pool_price rps s = 0 := by
        unfold regular_pool_price pool_billing
        rw [if_neg hv]
      rw [hp]
      exact List.sum_eq_zero (by simp)
  · by_cases hv : 0 < pool_vol (large_pool rps s)
    · rw [hl, prorataFees_sum_pos _ _ _ _ (hvols_l hv) hv]
    · rw [hl, prorataFees_nonpos _ _ _ hv]
      have hp : large_pool_price rps s = 0 := by
        unfold large_pool_price pool_billing
        rw [if_neg hv]
      rw [hp]
      exact List.sum_eq_zero (by simp)
  · exact htot

/-- Witness for C1 on the concrete two-line `demoBatch` under
`refSettings` (regular volumes 13 and 39, pool fee 12, fees 3 and 9). -/
theorem get_storage_fees_prorata_exact_witness :
    0 < pool_vol (regular_pool demoBatch refSettings)
  ∧ pool_fees (regular_pool demoBatch refSettings)
      = pool_shares (regular_pool demoBatch refSettings)
          (regular_pool_price demoBatch refSettings)
        ++ [regular_pool_price demoBatch refSettings
             - (pool_shares (regular_pool demoBatch refSettings)
                 (regular_pool_price demoBatch refSettings)).sum] :=
  ⟨by norm_num [pool_vol, regular_pool, get_storage_fees,
      compute_strg_vol_and_flag_for_received_products, strgVolAndFlagLine,
      compute_prorata_for_received_products, assignFeesByFlag, prorataFees,
      demoBatch, demoProduct1, demoProduct2, refSettings, List.filter],
   (get_storage_fees_prorata_exact demoBatch refSettings).1
     (by norm_num [pool_vol, regular_pool, get_storage_fees,
        compute_strg_vol_and_flag_for_received_products, strgVolAndFlagLine,
        compute_prorata_for_received_products, assignFeesByFlag, prorataFees,
        demoBatch, demoProduct1, demoProduct2, refSettings, List.filter])⟩

/-- C10: `get_storage_fees` returns the same lines in their original
order, writing only `vol_to_store`, `large_strg_flag` and
`total_storage_fee`: the product reference, `quantity_received` and
`total_inbound_fee` of every line are unchanged. -/
theorem get_storage_fees_frame (rps : List ReceivedProduct) (s : Settings) :
    ((get_storage_fees rps s).1).length = rps.length
  ∧ ((get_storage_fees rps s).1).map (fun rp => rp.product)
      = rps.map (fun rp => rp.product)
  ∧ ((get_storage_fees rps s).1).map (fun rp => rp.quantity_received)
      = rps.map (fun rp => rp.quantity_received)
  ∧ ((get_storage_fees rps s).1).map (fun rp => rp.total_inbound_fee)
      = rps.map (fun rp => rp.total_inbound_fee) := by
  have hline_prod : ∀ rp, (strgVolAndFlagLine s rp).product = rp.product := by
    intro rp
    by_cases h : rp.product.vol * (rp.quantity_received : ℚ) * (13 / 10)
        < (s.STRG_VOL_LIMIT : ℚ) <;> simp [strgVolAndFlagLine, h]
  have hline_qty : ∀ rp, (strgVolAndFlagLine s rp).quantity_received
      = rp.quantity_received := by
    intro rp
    by_cases h : rp.product.vol * (rp.quantity_received : ℚ) * (13 / 10)
        < (s.STRG_VOL_LIMIT : ℚ) <;> simp [strgVolAndFlagLine, h]
  have hline_in : ∀ rp, (strgVolAndFlagLine s rp).total_inbound_fee
      = rp.total_inbound_fee := by
    intro rp
    by_cases h : rp.product.vol * (rp.quantity_received : ℚ) * (13 / 10)
        < (s.STRG_VOL_LIMIT : ℚ) <;> simp [strgVolAndFlagLine, h]
  have hout : (get_storage_fees rps s).1
      = assignFeesByFlag (rps.map (strgVolAndFlagLine s)) _ _ := rfl
  refine ⟨?_, ?_, ?_, ?_⟩
  · rw [hout, assignFeesByFlag_length, List.length_map]
  · rw [hout, assignFeesByFlag_map_product, List.map_map]
    exact List.map_congr_left (fun rp _ => hline_prod rp)
  · rw [hout, assignFeesByFlag_map_quantity, List.map_map]
    exact List.map_congr_left (fun rp _ => hline_qty rp)
  · rw [hout, assignFeesByFlag_map_inbound, List.map_map]
    exact List.map_congr_left (fun rp _ => hline_in rp)

/-! ## Inbound claims -/

/-- Computes an `Int.floor` from two rational bounds (used to evaluate
floors on concrete rationals). -/
theorem floor_eval (q : ℚ) (k : ℤ) (h1 : (k : ℚ) ≤ q) (h2 : q < (k : ℚ) + 1) :
    ⌊q⌋ = k :=
  Int.floor_eq_iff.mpr ⟨h1, by exact_mod_cast h2⟩

/-- Computes an `Int.ceil` from two rational bounds. -/
theorem ceil_eval (q : ℚ) (k : ℤ) (h1 : (k : ℚ) - 1 < q) (h2 : q ≤ (k : ℚ)) :
    ⌈q⌉ = k :=
  Int.ceil_eq_iff.mpr ⟨by exact_mod_cast h1, h2⟩

/-- C8: the inbound size bucket is assigned from the batch's summed
volumetric weight by strictly-greater-than comparisons checked from the
largest boundary down; for ascending boundaries this means `XL` iff the
total exceeds the XL limit, `L`/`M` on the half-open intervals below, `S`
otherwise; a total exactly equal to the M-limit falls into bucket `S`. -/
theorem assign_size_buckets (inv : InitialInventory) (s : Settings)
    (hML : s.M_VOL_WEIGHT_LIMIT_IN ≤ s.L_VOL_WEIGHT_LIMIT_IN)
    (hLX : s.L_VOL_WEIGHT_LIMIT_IN ≤ s.XL_VOL_WEIGHT_LIMIT_IN) :
    ((assign_size inv s).size = Size.XL
        ↔ (s.XL_VOL_WEIGHT_LIMIT_IN : ℚ) < total_vol_weight_in inv.received_products)
  ∧ ((assign_size inv s).size = Size.L
        ↔ (s.L_VOL_WEIGHT_LIMIT_IN : ℚ) < total_vol_weight_in inv.received_products
          ∧ total_vol_weight_in inv.received_products ≤ (s.XL_VOL_WEIGHT_LIMIT_IN : ℚ))
  ∧ ((assign_size inv s).size = Size.M
        ↔ (s.M_VOL_WEIGHT_LIMIT_IN : ℚ) < total_vol_weight_in inv.received_products
          ∧ total_vol_weight_in inv.received_products ≤ (s.L_VOL_WEIGHT_LIMIT_IN : ℚ))
  ∧ ((assign_size inv s).size = Size.S
        ↔ total_vol_weight_in inv.received_products ≤ (s.M_VOL_WEIGHT_LIMIT_IN : ℚ))
  ∧ (total_vol_weight_in inv.received_products = (s.M_VOL_WEIGHT_LIMIT_IN : ℚ)
        → (assign_size inv s).size = Size.S) := by
  have hML' : (s.M_VOL_WEIGHT_LIMIT_IN : ℚ) ≤ (s.L_VOL_WEIGHT_LIMIT_IN : ℚ) := by
    exact_mod_cast hML
  have hLX' : (s.L_VOL_WEIGHT_LIMIT_IN : ℚ) ≤ (s.XL_VOL_WEIGHT_LIMIT_IN : ℚ) := by
    exact_mod_cast hLX
  unfold assign_size
  by_cases h1 : (s.XL_VOL_WEIGHT_LIMIT_IN : ℚ) < total_vol_weight_in inv.received_products
  · rw [if_pos h1]
    refine ⟨by simp [h1], ?_, ?_, ?_, ?_⟩
    · simp only [InitialInventory.size]
      constructor
      · intro h; exact absurd h (by decide)
      · rintro ⟨-, h⟩; exact absurd h (not_le.mpr h1)
    · simp only [InitialInventory.size]
      constructor
      · intro h; exact absurd h (by decide)
      · rintro ⟨-, h⟩; exfalso; linarith
    · simp only [InitialInventory.size]
      constructor
      · intro h; exact absurd h (by decide)
      · intro h; exfalso; linarith
    · intro h
      exfalso
      linarith
  · rw [if_neg h1]
    by_cases h2 : (s.L_VOL_WEIGHT_LIMIT_IN : ℚ) < total_vol_weight_in inv.received_products
    · rw [if_pos h2]
      refine ⟨?_, ?_, ?_, ?_, ?_⟩
      · simp only [InitialInventory.size]
        constructor
        · intro h; exact absurd h (by decide)
        · intro h; exact absurd h h1
      · simp [h2, not_lt.mp h1]
      · simp only [InitialInventory.size]
        constructor
        · intro h; exact absurd h (by decide)
        · rintro ⟨-, h⟩; exact absurd h (not_le.mpr h2)
      · simp only [InitialInventory.size]
        constructor
        · intro h; exact absurd h (by decide)
        · intro h; exfalso; linarith
      · intro h
        exfalso
        linarith
    · rw [if_neg h2]
      by_cases h3 : (s.M_VOL_WEIGHT_LIMIT_IN : ℚ) < total_vol_weight_in inv.received_products
      · rw [if_pos h3]
        refine ⟨?_, ?_, ?_, ?_, ?_⟩
        · simp only [InitialInventory.size]
          constructor
          · intro h; exact absurd h (by decide)
          · intro h; exact absurd h h1
        · simp only [InitialInventory.size]
          constructor
          · intro h; exact absurd h (by decide)
          · rintro ⟨h, -⟩; exact absurd h h2
        · simp [h3, not_lt.mp h2]
        · simp only [InitialInventory.size]
          constructor
          · intro h; exact absurd h (by decide)
          · intro h; exfalso; linarith
        · intro h
          exfalso
          linarith
      · rw [if_neg h3]
        refine ⟨?_, ?_, ?_, ?_, ?_⟩
        · simp only [InitialInventory.size]
          constructor
          · intro h; exact absurd h (by decide)
          · intro h; exact absurd h h1
        · simp only [InitialInventory.size]
          constructor
          · intro h; exact absurd h (by decide)
          · rintro ⟨h, -⟩; exact absurd h h2
        · simp only [InitialInventory.size]
          constructor
          · intro h; exact absurd h (by decide)
          · rintro ⟨h, -⟩; exact absurd h h3
        · simp [not_lt.mp h3]
        · intro _; simp

/-- Witness for C8: a one-line batch with total volumetric weight exactly
the M-limit of `refSettings` (10) is assigned bucket `S`. -/
theorem assign_size_buckets_witness :
    (assign_size demoBoundaryInventory refSettings).size = Size.S :=
  (assign_size_buckets demoBoundaryInventory refSettings (by decide)
      (by decide)).2.2.2.2
    (by norm_num [total_vol_weight_in, demoBoundaryInventory,
      demoBoundaryProduct, demoProduct1, refSettings])

/-- C9: `get_settings` maps `Size.M` in `IN_TIERS` to
`(M_VOL_WEIGHT_LIMIT_IN, S_RATE_IN)`, so `get_in_rate_by_size Size.M`
returns `S_RATE_IN`, and a batch classified `M` is priced at the S rate
per line, whatever `M_RATE_IN` is. -/
theorem get_settings_M_uses_S_rate (env : EnvConfig) :
    (get_settings env).IN_TIERS Size.M = (env.M_VOL_WEIGHT_LIMIT_IN, env.S_RATE_IN)
  ∧ (get_settings env).get_in_rate_by_size Size.M = env.S_RATE_IN
  ∧ ∀ inv : InitialInventory, inv.size = Size.M →
      (compute_inbound_rates inv (get_settings env)).received_products.map
          (fun rp => rp.total_inbound_fee)
        = inv.received_products.map
            (fun rp => env.S_RATE_IN * (rp.quantity_received : ℚ) * rp.product.vol_weight) := by
  refine ⟨rfl, rfl, ?_⟩
  intro inv h
  simp only [compute_inbound_rates, h, List.map_map]
  rfl

/-- Witness for C9: under `demoEnv` (whose `M_RATE_IN = 7` differs from
`S_RATE_IN = 1`), an inventory classified `M` is priced with rate 1. -/
theorem get_settings_M_uses_S_rate_witness :
    (compute_inbound_rates demoInventoryM (get_settings demoEnv)).received_products.map
        (fun rp => rp.total_inbound_fee)
      = demoInventoryM.received_products.map
          (fun rp => demoEnv.S_RATE_IN * (rp.quantity_received : ℚ) * rp.product.vol_weight) :=
  (get_settings_M_uses_S_rate demoEnv).2.2 demoInventoryM rfl

/-! ## Sales-simulation quantity (C2) -/

theorem simulated_quantity_sold_eq_floor (quantity_received : ℤ)
    (sales_percentage : ℚ) :
    simulated_quantity_sold quantity_received sales_percentage
      = ⌊(quantity_received : ℚ) * sales_percentage⌋ := by
  by_cases h : 0 < ⌊(quantity_received : ℚ) * sales_percentage⌋
      ∧ ⌊(quantity_received : ℚ) * sales_percentage⌋ < 1
  · obtain ⟨h1, h2⟩ := h
    omega
  · simp [simulated_quantity_sold, h]

/-- C2: the sales-simulation quantity is the plain floor of
`quantity_received * sales_fraction`; the source's
`if 0 < quantity_sold < 1` rounding guard sits after `math.floor` and can
never fire on an integer, so the spec's example (10 × 0.05) yields 0, not
the claimed 1. -/
theorem simulated_quantity_sold_no_force :
    simulated_quantity_sold 10 (1 / 20) = 0
  ∧ ∀ (quantity_received : ℤ) (sales_percentage : ℚ),
      simulated_quantity_sold quantity_received sales_percentage
        = ⌊(quantity_received : ℚ) * sales_percentage⌋ := by
  constructor
  · rw [simulated_quantity_sold_eq_floor]
    rw [show ((10 : ℤ) : ℚ) * (1 / 20) = 1 / 2 by norm_num]
    exact floor_eval (1 / 2) 0 (by norm_num) (by norm_num)
  · exact simulated_quantity_sold_eq_floor

/-! ## Outbound lemmas -/

theorem insertDesc_ne_nil (x : ℤ × ℚ) (l : List (ℤ × ℚ)) : insertDesc x l ≠ [] := by
  cases l with
  | nil => simp [insertDesc]
  | cons y ys =>
    unfold insertDesc
    split <;> simp

theorem mem_insertDesc (y x : ℤ × ℚ) :
    ∀ l : List (ℤ × ℚ), y ∈ insertDesc x l ↔ y = x ∨ y ∈ l := by
  intro l
  induction l with
  | nil => simp [insertDesc]
  | cons z zs ih =>
    unfold insertDesc
    split
    · simp [List.mem_cons]
    · simp only [List.mem_cons, ih]
      tauto

theorem sorted_tiers_ne_nil (s : Settings) : s.sorted_tiers ≠ [] :=
  insertDesc_ne_nil _ _

theorem mem_sorted_tiers (s : Settings) (t : ℤ × ℚ) (h : t ∈ s.sorted_tiers) :
    t = (s.L_VOL_WEIGHT_LIMIT_OUT, s.L_RATE_OUT)
  ∨ t = (s.M_VOL_WEIGHT_LIMIT_OUT, s.M_RATE_OUT)
  ∨ t = (s.S_VOL_WEIGHT_LIMIT_OUT, s.S_RATE_OUT) := by
  unfold Settings.sorted_tiers at h
  rw [mem_insertDesc] at h
  rcases h with h | h
  · exact Or.inr (Or.inr h)
  · rw [mem_insertDesc] at h
    rcases h with h | h
    · exact Or.inr (Or.inl h)
    · rw [mem_insertDesc] at h
      rcases h with h | h
      · exact Or.inl h
      · simp at h

theorem sorted_tiers_ref (s : Settings)
    (h1 : s.S_VOL_WEIGHT_LIMIT_OUT < s.M_VOL_WEIGHT_LIMIT_OUT)
    (h2 : s.M_VOL_WEIGHT_LIMIT_OUT < s.L_VOL_WEIGHT_LIMIT_OUT) :
    s.sorted_tiers
      = [(s.L_VOL_WEIGHT_LIMIT_OUT, s.L_RATE_OUT),
         (s.M_VOL_WEIGHT_LIMIT_OUT, s.M_RATE_OUT),
         (s.S_VOL_WEIGHT_LIMIT_OUT, s.S_RATE_OUT)] := by
  have hLM : ¬ s.L_VOL_WEIGHT_LIMIT_OUT < s.M_VOL_WEIGHT_LIMIT_OUT := not_lt.mpr h2.le
  have hLS : ¬ s.L_VOL_WEIGHT_LIMIT_OUT < s.S_VOL_WEIGHT_LIMIT_OUT :=
    not_lt.mpr (h1.le.trans h2.le)
  have hMS : ¬ s.M_VOL_WEIGHT_LIMIT_OUT < s.S_VOL_WEIGHT_LIMIT_OUT := not_lt.mpr h1.le
  simp [Settings.sorted_tiers, insertDesc, hLM, hLS, hMS]

theorem calcTiersFeeAux_nonpos (tiers : List (ℤ × ℚ)) (fuel : ℕ) (prev : ℤ)
    (fee r : ℚ) (h : ¬ 0 < r) :
    calcTiersFeeAux tiers fuel prev fee r = some fee := by
  cases fuel <;> simp [calcTiersFeeAux, h]

theorem calc_tiers_fee_nonpos (s : Settings) (r : ℚ) (h : ¬ 0 < r) :
    calc_tiers_fee r s = some 0 :=
  calcTiersFeeAux_nonpos _ _ _ _ _ h

theorem le_tiersFuel (r : ℚ) : r ≤ (tiersFuel r : ℚ) := by
  unfold tiersFuel
  have h1 : r ≤ (⌈r⌉ : ℚ) := Int.le_ceil r
  have h2 : ((⌈r⌉ : ℤ) : ℚ) ≤ ((max 0 ⌈r⌉ : ℤ) : ℚ) := by
    exact_mod_cast le_max_right 0 ⌈r⌉
  have h3 : ((max 0 ⌈r⌉ : ℤ) : ℚ) = (((max 0 ⌈r⌉).toNat : ℕ) : ℚ) := by
    norm_cast
    exact (Int.toNat_of_nonneg (le_max_left 0 ⌈r⌉)).symm
  exact le_trans h1 (le_trans h2 (le_of_eq h3))

theorem calcTiersFeeAux_total (tiers : List (ℤ × ℚ)) (hne : tiers ≠ [])
    (hpos : ∀ t ∈ tiers, 1 ≤ t.1) :
    ∀ (fuel : ℕ) (prev : ℤ) (fee r : ℚ), 1 ≤ prev → r ≤ (fuel : ℚ) →
      ∃ out, calcTiersFeeAux tiers fuel prev fee r = some out := by
  intro fuel
  induction fuel with
  | zero =>
    intro prev fee r _ hr
    refine ⟨fee, calcTiersFeeAux_nonpos _ _ _ _ _ ?_⟩
    intro h
    exact absurd hr (not_le.mpr (by exact_mod_cast h))
  | succ n ih =>
    intro prev fee r hprev hr
    by_cases h : 0 < r
    · cases hfind : tiers.find? (fun t => decide ((t.1 : ℚ) ≤ r)) with
      | some t =>
        have ht1 : 1 ≤ t.1 := hpos t (List.mem_of_find?_eq_some hfind)
        have hstep : r - (prev : ℚ) ≤ (n : ℚ) := by
          have hp : (1 : ℚ) ≤ (prev : ℚ) := by exact_mod_cast hprev
          push_cast at hr
          linarith
        obtain ⟨out, hout⟩ := ih t.1 (fee + t.2) (r - (prev : ℚ)) ht1 hstep
        refine ⟨out, ?_⟩
        simp only [calcTiersFeeAux, if_pos h, hfind]
        exact hout
      | none =>
        have hl : tiers.getLast?.isSome := List.getLast?_isSome.mpr hne
        obtain ⟨tl, htl⟩ := Option.isSome_iff_exists.mp hl
        refine ⟨fee + tl.2, ?_⟩
        simp only [calcTiersFeeAux, if_pos h, hfind, htl]
    · exact ⟨fee, calcTiersFeeAux_nonpos _ _ _ _ _ h⟩

/-- C7: with strictly positive tier thresholds (and the positive seed 55),
the tier loop of `_calc_tiers_fee` terminates on every non-negative
remainder: the fuel `⌈remaining⌉` always suffices because every applied
tier subtracts a previous threshold of at least 1, and the no-tier branch
stops immediately. -/
theorem calc_tiers_fee_terminates (s : Settings) (remaining : ℚ)
    (hS : 0 < s.S_VOL_WEIGHT_LIMIT_OUT)
    (hM : 0 < s.M_VOL_WEIGHT_LIMIT_OUT)
    (hL : 0 < s.L_VOL_WEIGHT_LIMIT_OUT) :
    ∃ fee, calc_tiers_fee remaining s = some fee := by
  apply calcTiersFeeAux_total s.sorted_tiers (sorted_tiers_ne_nil s)
  · intro t ht
    rcases mem_sorted_tiers s t ht with h | h | h <;> rw [h] <;> omega
  · omega
  · exact le_tiersFuel remaining

/-- Witness for C7 at `refSettings`, remainder 70. -/
theorem calc_tiers_fee_terminates_witness :
    ∃ fee, calc_tiers_fee 70 refSettings = some fee :=
  calc_tiers_fee_terminates refSettings 70 (by decide) (by decide) (by decide)

theorem calcTiersFeeAux_eq_claim (t1 t2 t3 : ℤ) (r1 r2 r3 : ℚ) :
    ∀ (fuel : ℕ) (prev : ℤ) (fee r : ℚ),
      calcTiersFeeAux [(t1, r1), (t2, r2), (t3, r3)] fuel prev fee r
        = tiers_fee_claim t1 t2 t3 r1 r2 r3 fuel prev fee r := by
  intro fuel
  induction fuel with
  | zero => intro prev fee r; rfl
  | succ n ih =>
    intro prev fee r
    by_cases h : 0 < r
    · simp only [calcTiersFeeAux, tiers_fee_claim, if_pos h]
      by_cases h1 : (t1 : ℚ) ≤ r
      · simp [List.find?, h1, ih]
      · by_cases h2 : (t2 : ℚ) ≤ r
        · simp [List.find?, h1, h2, ih]
        · by_cases h3 : (t3 : ℚ) ≤ r
          · simp [List.find?, h1, h2, h3, ih]
          · simp [List.find?, h1, h2, h3, List.getLast?]
    · simp only [calcTiersFeeAux, tiers_fee_claim, if_neg h]

/-- C3: for a schedule with strictly ascending configured tier boundaries,
`_calc_tiers_fee` computes exactly the claimed iteration over the three
tiers in descending threshold order with seed previous-threshold 55:
on a hit add the tier's rate, subtract the previous tier's threshold, make
the hit tier the new previous and restart from the top; on a miss add one
smallest-tier rate and stop. -/
theorem calc_tiers_fee_iteration (s : Settings) (remaining : ℚ)
    (h1 : s.S_VOL_WEIGHT_LIMIT_OUT < s.M_VOL_WEIGHT_LIMIT_OUT)
    (h2 : s.M_VOL_WEIGHT_LIMIT_OUT < s.L_VOL_WEIGHT_LIMIT_OUT) :
    calc_tiers_fee remaining s
      = tiers_fee_claim s.L_VOL_WEIGHT_LIMIT_OUT s.M_VOL_WEIGHT_LIMIT_OUT
          s.S_VOL_WEIGHT_LIMIT_OUT s.L_RATE_OUT s.M_RATE_OUT s.S_RATE_OUT
          (tiersFuel remaining) 55 0 remaining := by
  unfold calc_tiers_fee
  rw [sorted_tiers_ref s h1 h2, calcTiersFeeAux_eq_claim]

/-- Witness for C3 at `refSettings`, remainder 70. -/
theorem calc_tiers_fee_iteration_witness :
    calc_tiers_fee 70 refSettings
      = tiers_fee_claim refSettings.L_VOL_WEIGHT_LIMIT_OUT
          refSettings.M_VOL_WEIGHT_LIMIT_OUT refSettings.S_VOL_WEIGHT_LIMIT_OUT
          refSettings.L_RATE_OUT refSettings.M_RATE_OUT refSettings.S_RATE_OUT
          (tiersFuel 70) 55 0 70 :=
  calc_tiers_fee_iteration refSettings 70 (by decide) (by decide)

/-- C4: at or above the large-order limit, the outbound fee is
`⌊w/limit⌋` XL chunk rates plus the tier fee of the remainder
`w − ⌊w/limit⌋·limit`; a weight exactly equal to the limit gives one full
chunk and a zero remainder, hence exactly one XL chunk rate. -/
theorem compute_outbound_chunks (s : OutSettings) (w : ℚ)
    (hlim : 0 < s.XL_VOL_WEIGHT_LIMIT_OUT)
    (hw : (s.XL_VOL_WEIGHT_LIMIT_OUT : ℚ) ≤ w) :
    compute_outbound w s
      = (calc_tiers_fee
            (w - (⌊w / (s.XL_VOL_WEIGHT_LIMIT_OUT : ℚ)⌋ : ℚ)
              * (s.XL_VOL_WEIGHT_LIMIT_OUT : ℚ)) s.toSettings).map
          (fun t => (⌊w / (s.XL_VOL_WEIGHT_LIMIT_OUT : ℚ)⌋ : ℚ) * s.XL_RATE_OUT + t)
  ∧ (w = (s.XL_VOL_WEIGHT_LIMIT_OUT : ℚ)
      → compute_outbound w s = some s.XL_RATE_OUT) := by
  constructor
  · unfold compute_outbound
    rw [if_neg (not_lt.mpr hw)]
  · intro he
    unfold compute_outbound
    rw [if_neg (not_lt.mpr hw)]
    have hne : (s.XL_VOL_WEIGHT_LIMIT_OUT : ℚ) ≠ 0 := by
      exact_mod_cast hlim.ne'
    rw [he, div_self hne, Int.floor_one]
    dsimp only
    rw [Int.cast_one, one_mul,
      show (s.XL_VOL_WEIGHT_LIMIT_OUT : ℚ) - 1 * (s.XL_VOL_WEIGHT_LIMIT_OUT : ℚ)
        = 0 by ring,
      calc_tiers_fee_nonpos s.toSettings 0 (by norm_num)]
    simp

/-- Witness for C4 at `refOutSettings` (limit 55), weight 55. -/
theorem compute_outbound_chunks_witness :
    (compute_outbound 55 refOutSettings
      = (calc_tiers_fee
            (55 - (⌊(55 : ℚ) / (refOutSettings.XL_VOL_WEIGHT_LIMIT_OUT : ℚ)⌋ : ℚ)
              * (refOutSettings.XL_VOL_WEIGHT_LIMIT_OUT : ℚ)) refOutSettings.toSettings).map
          (fun t => (⌊(55 : ℚ) / (refOutSettings.XL_VOL_WEIGHT_LIMIT_OUT : ℚ)⌋ : ℚ)
            * refOutSettings.XL_RATE_OUT + t))
  ∧ ((55 : ℚ) = (refOutSettings.XL_VOL_WEIGHT_LIMIT_OUT : ℚ)
      → compute_outbound 55 refOutSettings = some refOutSettings.XL_RATE_OUT) :=
  compute_outbound_chunks refOutSettings 55 (by decide)
    (by norm_num [refOutSettings, refSettings])

/-- Amended C5: below the large-order limit the outbound fee is a single
flat band rate, but the band boundaries are the literals `5`, `15`, `55`
hard-coded in `compute_outbound` (the reference-schedule values), not the
configured `S/M/L_VOL_WEIGHT_LIMIT_OUT` fields. -/
theorem compute_outbound_bands_literal (s : OutSettings) (w : ℚ)
    (hw : w < (s.XL_VOL_WEIGHT_LIMIT_OUT : ℚ)) :
    compute_outbound w s
      = some (if w < 5 then s.S_RATE_OUT else if w < 15 then s.M_RATE_OUT
              else if w < 55 then s.L_RATE_OUT else s.XL_RATE_OUT) := by
  unfold compute_outbound
  rw [if_pos hw]
  split_ifs <;> rfl

/-- Witness for the amended C5 at `refOutSettings`, weight 3. -/
theorem compute_outbound_bands_literal_witness :
    compute_outbound 3 refOutSettings
      = some (if (3 : ℚ) < 5 then refOutSettings.S_RATE_OUT
              else if (3 : ℚ) < 15 then refOutSettings.M_RATE_OUT
              else if (3 : ℚ) < 55 then refOutSettings.L_RATE_OUT
              else refOutSettings.XL_RATE_OUT) :=
  compute_outbound_bands_literal refOutSettings 3
    (by norm_num [refOutSettings, refSettings])

/-- Counterexample to C5 as stated: under `bandCexSettings` the configured
band boundary fields are `10/20/60`, yet weight 7 is priced at the M band
rate (2) because the code compares against the literal 5/15/55 boundaries;
the claimed configured-boundary lookup would give the S rate (1). -/
theorem compute_outbound_bands_config_cex :
    compute_outbound 7 bandCexSettings = some bandCexSettings.M_RATE_OUT
  ∧ outbound_band_fee_claim 7 bandCexSettings = bandCexSettings.S_RATE_OUT
  ∧ bandCexSettings.M_RATE_OUT ≠ bandCexSettings.S_RATE_OUT := by
  refine ⟨?_, ?_, by norm_num [bandCexSettings, refSettings]⟩
  · unfold compute_outbound
    norm_num [bandCexSettings, refSettings]
  · unfold outbound_band_fee_claim
    norm_num [bandCexSettings, refSettings]

/-! ## Closed form of the tier loop on reference thresholds (5, 15, 55) -/

theorem floor_div_55_zero (r : ℚ) (h0 : 0 ≤ r) (h : r < 55) : ⌊r / 55⌋ = 0 := by
  rw [Int.floor_eq_zero_iff]
  constructor
  · positivity
  · rw [div_lt_one (by norm_num : (0:ℚ) < 55)]
    exact h

theorem refTiersFee_nonpos (sr mr lr r : ℚ) (h : r ≤ 0) :
    refTiersFee sr mr lr r = 0 := by
  unfold refTiersFee
  rw [if_pos h]

theorem refTiersFee_low (sr mr lr r : ℚ) (h0 : 0 < r) (h : r < 15) :
    refTiersFee sr mr lr r = sr := by
  unfold refTiersFee
  rw [if_neg (not_le.mpr h0), floor_div_55_zero r h0.le (by linarith)]
  push_cast
  rw [zero_mul, zero_add, mul_zero, sub_zero]
  unfold refTail
  rw [if_neg h0.ne', if_pos h]

theorem refTiersFee_mid (sr mr lr r : ℚ) (h15 : 15 ≤ r) (h55 : r < 55) :
    refTiersFee sr mr lr r = mr := by
  have h0 : 0 < r := by linarith
  unfold refTiersFee
  rw [if_neg (not_le.mpr h0), floor_div_55_zero r h0.le h55]
  push_cast
  rw [zero_mul, zero_add, mul_zero, sub_zero]
  unfold refTail
  rw [if_neg h0.ne', if_neg (not_lt.mpr h15)]

theorem refTiersFee_step (sr mr lr r : ℚ) (h : 55 ≤ r) :
    refTiersFee sr mr lr r = lr + refTiersFee sr mr lr (r - 55) := by
  have h0 : 0 < r := by linarith
  have hfloor : ⌊r / 55⌋ = ⌊(r - 55) / 55⌋ + 1 := by
    rw [show r / 55 = (r - 55) / 55 + 1 by ring, Int.floor_add_one]
  by_cases h2 : r - 55 ≤ 0
  · have hr : r = 55 := by linarith
    subst hr
    rw [refTiersFee_nonpos sr mr lr (55 - 55) (by norm_num), add_zero]
    unfold refTiersFee
    rw [if_neg (by norm_num), show (55 : ℚ) / 55 = 1 by norm_num, Int.floor_one]
    push_cast
    rw [one_mul, mul_one, sub_self]
    unfold refTail
    rw [if_pos rfl, add_zero]
  · push_neg at h2
    unfold refTiersFee
    rw [if_neg (not_le.mpr h0), if_neg (not_le.mpr h2), hfloor]
    push_cast
    rw [show r - 55 * ((⌊(r - 55) / 55⌋ : ℚ) + 1)
        = r - 55 - 55 * (⌊(r - 55) / 55⌋ : ℚ) by ring]
    ring

theorem calcTiersFeeAux_ref (lr mr sr : ℚ) :
    ∀ (fuel : ℕ) (fee r : ℚ), r ≤ (fuel : ℚ) →
      calcTiersFeeAux [(55, lr), (15, mr), (5, sr)] fuel 55 fee r
        = some (fee + refTiersFee sr mr lr r) := by
  intro fuel
  induction fuel with
  | zero =>
    intro fee r hr
    have h : ¬ 0 < r := by exact_mod_cast not_lt.mpr hr
    rw [calcTiersFeeAux_nonpos _ _ _ _ _ h,
      refTiersFee_nonpos sr mr lr r (not_lt.mp h), add_zero]
  | succ n ih =>
    intro fee r hr
    by_cases h : 0 < r
    · simp only [calcTiersFeeAux, if_pos h]
      by_cases h55 : ((55 : ℤ) : ℚ) ≤ r
      · simp only [List.find?, decide_eq_true h55]
        have hstep : r - ((55 : ℤ) : ℚ) ≤ (n : ℚ) := by
          push_cast at hr h55 ⊢
          linarith
        rw [ih (fee + lr) (r - ((55 : ℤ) : ℚ)) hstep,
          refTiersFee_step sr mr lr r (by exact_mod_cast h55)]
        congr 1
        push_cast
        ring
      · by_cases h15 : ((15 : ℤ) : ℚ) ≤ r
        · simp only [List.find?, decide_eq_false h55, decide_eq_true h15]
          have hneg : ¬ 0 < r - ((55 : ℤ) : ℚ) := by
            push_cast at h55 ⊢
            push_neg at h55 ⊢
            linarith
          rw [calcTiersFeeAux_nonpos _ _ _ _ _ hneg,
            refTiersFee_mid sr mr lr r (by exact_mod_cast h15)
              (by push_cast at h55; push_neg at h55; exact h55)]
        · by_cases h5 : ((5 : ℤ) : ℚ) ≤ r
          · simp only [List.find?, decide_eq_false h55, decide_eq_false h15,
              decide_eq_true h5]
            have hneg : ¬ 0 < r - ((55 : ℤ) : ℚ) := by
              push_cast at h5 h55 ⊢
              push_neg at h55 ⊢
              linarith
            rw [calcTiersFeeAux_nonpos _ _ _ _ _ hneg,
              refTiersFee_low sr mr lr r h
                (by push_cast at h15; push_neg at h15; linarith)]
          · simp only [List.find?, decide_eq_false h55, decide_eq_false h15,
              decide_eq_false h5]
            rw [refTiersFee_low sr mr lr r h
              (by push_cast at h5; push_neg at h5; linarith)]
            simp [List.getLast?]
    · rw [calcTiersFeeAux_nonpos _ _ _ _ _ h,
        refTiersFee_nonpos sr mr lr r (not_lt.mp h), add_zero]

theorem calc_tiers_fee_ref (s : Settings)
    (hS : s.S_VOL_WEIGHT_LIMIT_OUT = 5)
    (hM : s.M_VOL_WEIGHT_LIMIT_OUT = 15)
    (hL : s.L_VOL_WEIGHT_LIMIT_OUT = 55) (r : ℚ) :
    calc_tiers_fee r s
      = some (refTiersFee s.S_RATE_OUT s.M_RATE_OUT s.L_RATE_OUT r) := by
  unfold calc_tiers_fee
  rw [sorted_tiers_ref s (by omega) (by omega), hS, hM, hL,
    calcTiersFeeAux_ref s.L_RATE_OUT s.M_RATE_OUT s.S_RATE_OUT (tiersFuel r) 0 r
      (le_tiersFuel r), zero_add]

/-! ## Monotonicity of outbound pricing (C6) -/

theorem refTail_nonneg (sr mr : ℚ) (h0 : 0 ≤ sr) (hsm : sr ≤ mr) (x : ℚ) :
    0 ≤ refTail sr mr x := by
  unfold refTail
  split_ifs <;> linarith

theorem refTail_le_mr (sr mr : ℚ) (h0 : 0 ≤ sr) (hsm : sr ≤ mr) (x : ℚ) :
    refTail sr mr x ≤ mr := by
  unfold refTail
  split_ifs <;> linarith

theorem refTail_mono (sr mr : ℚ) (h0 : 0 ≤ sr) (hsm : sr ≤ mr)
    (x1 x2 : ℚ) (hx : 0 ≤ x1) (h : x1 ≤ x2) :
    refTail sr mr x1 ≤ refTail sr mr x2 := by
  rcases eq_or_lt_of_le hx with heq | hpos
  · have hz : refTail sr mr x1 = 0 := by
      rw [← heq]
      unfold refTail
      rw [if_pos rfl]
    rw [hz]
    exact refTail_nonneg sr mr h0 hsm x2
  · have hpos2 : 0 < x2 := lt_of_lt_of_le hpos h
    unfold refTail
    rw [if_neg hpos.ne', if_neg hpos2.ne']
    split_ifs <;> linarith

theorem refTiersFee_nonneg (sr mr lr : ℚ) (h0 : 0 ≤ sr) (hsm : sr ≤ mr)
    (hml : mr ≤ lr) (r : ℚ) : 0 ≤ refTiersFee sr mr lr r := by
  unfold refTiersFee
  split_ifs with h
  · exact le_refl 0
  · push_neg at h
    have hk0 : (0 : ℤ) ≤ ⌊r / 55⌋ := Int.floor_nonneg.mpr (by positivity)
    have hk0' : (0 : ℚ) ≤ (⌊r / 55⌋ : ℚ) := by exact_mod_cast hk0
    have ht := refTail_nonneg sr mr h0 hsm (r - 55 * (⌊r / 55⌋ : ℚ))
    have hm : (0 : ℚ) ≤ (⌊r / 55⌋ : ℚ) * lr := mul_nonneg hk0' (by linarith)
    linarith

theorem residue55_bounds (r : ℚ) :
    0 ≤ r - 55 * (⌊r / 55⌋ : ℚ) ∧ r - 55 * (⌊r / 55⌋ : ℚ) < 55 := by
  have h1 : (⌊r / 55⌋ : ℚ) ≤ r / 55 := Int.floor_le _
  have h2 : r / 55 < (⌊r / 55⌋ : ℚ) + 1 := Int.lt_floor_add_one _
  have hr : 55 * (r / 55) = r := by ring
  constructor <;> linarith

theorem chunk_residue_bounds (w L : ℚ) (hL : 0 < L) :
    0 ≤ w - (⌊w / L⌋ : ℚ) * L ∧ w - (⌊w / L⌋ : ℚ) * L < L := by
  have h1 : (⌊w / L⌋ : ℚ) ≤ w / L := Int.floor_le _
  have h2 : w / L < (⌊w / L⌋ : ℚ) + 1 := Int.lt_floor_add_one _
  have hr : (w / L) * L = w := div_mul_cancel₀ w hL.ne'
  have h3 : (⌊w / L⌋ : ℚ) * L ≤ (w / L) * L := mul_le_mul_of_nonneg_right h1 hL.le
  have h4 : (w / L) * L < ((⌊w / L⌋ : ℚ) + 1) * L := mul_lt_mul_of_pos_right h2 hL
  constructor <;> nlinarith

theorem one_le_chunks (w L : ℚ) (hL : 0 < L) (hw : L ≤ w) : 1 ≤ ⌊w / L⌋ := by
  apply Int.le_floor.mpr
  rw [Int.cast_one]
  exact (one_le_div hL).mpr hw

theorem refTiersFee_mono (sr mr lr : ℚ) (h0 : 0 ≤ sr) (hsm : sr ≤ mr)
    (hml : mr ≤ lr) (r1 r2 : ℚ) (h : r1 ≤ r2) :
    refTiersFee sr mr lr r1 ≤ refTiersFee sr mr lr r2 := by
  by_cases h1 : r1 ≤ 0
  · rw [refTiersFee_nonpos _ _ _ _ h1]
    exact refTiersFee_nonneg sr mr lr h0 hsm hml r2
  · push_neg at h1
    have h2 : 0 < r2 := lt_of_lt_of_le h1 h
    unfold refTiersFee
    rw [if_neg (not_le.mpr h1), if_neg (not_le.mpr h2)]
    have hk : ⌊r1 / 55⌋ ≤ ⌊r2 / 55⌋ := Int.floor_le_floor (by gcongr)
    rcases eq_or_lt_of_le hk with hkeq | hklt
    · have hres1 := (residue55_bounds r1).1
      rw [hkeq] at hres1 ⊢
      have harg : r1 - 55 * (⌊r2 / 55⌋ : ℚ) ≤ r2 - 55 * (⌊r2 / 55⌋ : ℚ) := by linarith
      have := refTail_mono sr mr h0 hsm _ _ hres1 harg
      linarith
    · have e1 := refTail_le_mr sr mr h0 hsm (r1 - 55 * (⌊r1 / 55⌋ : ℚ))
      have e2 := refTail_nonneg sr mr h0 hsm (r2 - 55 * (⌊r2 / 55⌋ : ℚ))
      have hk1 : (⌊r1 / 55⌋ : ℚ) + 1 ≤ (⌊r2 / 55⌋ : ℚ) := by
        exact_mod_cast Int.add_one_le_iff.mpr hklt
      have hlr0 : 0 ≤ lr := by linarith
      have := mul_le_mul_of_nonneg_right hk1 hlr0
      linarith

theorem refTiersFee_le_xl (sr mr lr xl : ℚ) (L : ℤ)
    (h0 : 0 ≤ sr) (hsm : sr ≤ mr) (hml : mr ≤ lr) (hlx : lr ≤ xl)
    (hL : 0 < L)
    (hbound : ((⌈(L : ℚ) / 55⌉ - 1 : ℤ) : ℚ) * lr + mr ≤ xl)
    (r : ℚ) (hr : r < (L : ℚ)) :
    refTiersFee sr mr lr r ≤ xl := by
  by_cases hneg : r ≤ 0
  · rw [refTiersFee_nonpos _ _ _ _ hneg]
    linarith
  · push_neg at hneg
    unfold refTiersFee
    rw [if_neg (not_le.mpr hneg)]
    have hk : ⌊r / 55⌋ ≤ ⌈(L : ℚ) / 55⌉ - 1 := by
      have ha : (⌊r / 55⌋ : ℚ) ≤ r / 55 := Int.floor_le _
      have hb : (L : ℚ) / 55 ≤ (⌈(L : ℚ) / 55⌉ : ℚ) := Int.le_ceil _
      have hc : r / 55 < (L : ℚ) / 55 := by gcongr
      have hd : (⌊r / 55⌋ : ℚ) < (⌈(L : ℚ) / 55⌉ : ℚ) := by linarith
      have he : ⌊r / 55⌋ < ⌈(L : ℚ) / 55⌉ := by exact_mod_cast hd
      omega
    have htail := refTail_le_mr sr mr h0 hsm (r - 55 * (⌊r / 55⌋ : ℚ))
    have hk' : (⌊r / 55⌋ : ℚ) ≤ ((⌈(L : ℚ) / 55⌉ - 1 : ℤ) : ℚ) := by exact_mod_cast hk
    have hlr0 : 0 ≤ lr := by linarith
    have := mul_le_mul_of_nonneg_right hk' hlr0
    linarith

theorem compute_outbound_eq_total (s : OutSettings)
    (hS : s.S_VOL_WEIGHT_LIMIT_OUT = 5)
    (hM : s.M_VOL_WEIGHT_LIMIT_OUT = 15)
    (hL : s.L_VOL_WEIGHT_LIMIT_OUT = 55) (w : ℚ) :
    compute_outbound w s = some (outbound_total w s) := by
  unfold compute_outbound outbound_total
  by_cases hw : w < (s.XL_VOL_WEIGHT_LIMIT_OUT : ℚ)
  · rw [if_pos hw, if_pos hw]
    split_ifs <;> rfl
  · rw [if_neg hw, if_neg hw]
    dsimp only
    rw [calc_tiers_fee_ref s.toSettings hS hM hL]
    rfl

theorem outbound_total_mono (s : OutSettings)
    (h0 : 0 ≤ s.S_RATE_OUT) (hsm : s.S_RATE_OUT ≤ s.M_RATE_OUT)
    (hml : s.M_RATE_OUT ≤ s.L_RATE_OUT) (hlx : s.L_RATE_OUT ≤ s.XL_RATE_OUT)
    (hlim : 0 < s.XL_VOL_WEIGHT_LIMIT_OUT)
    (hbound : ((⌈(s.XL_VOL_WEIGHT_LIMIT_OUT : ℚ) / 55⌉ - 1 : ℤ) : ℚ) * s.L_RATE_OUT
        + s.M_RATE_OUT ≤ s.XL_RATE_OUT)
    (w1 w2 : ℚ) (hw0 : 0 ≤ w1) (hw : w1 ≤ w2) :
    outbound_total w1 s ≤ outbound_total w2 s := by
  have hL0 : (0 : ℚ) < (s.XL_VOL_WEIGHT_LIMIT_OUT : ℚ) := by exact_mod_cast hlim
  have hxl0 : 0 ≤ s.XL_RATE_OUT := by linarith
  unfold outbound_total
  by_cases a1 : w1 < (s.XL_VOL_WEIGHT_LIMIT_OUT : ℚ)
  · rw [if_pos a1]
    by_cases a2 : w2 < (s.XL_VOL_WEIGHT_LIMIT_OUT : ℚ)
    · rw [if_pos a2]
      split_ifs <;> linarith
    · rw [if_neg a2]
      push_neg at a2
      have hband : (if w1 < 5 then s.S_RATE_OUT else if w1 < 15 then s.M_RATE_OUT
          else if w1 < 55 then s.L_RATE_OUT else s.XL_RATE_OUT) ≤ s.XL_RATE_OUT := by
        split_ifs <;> linarith
      have hk : 1 ≤ ⌊w2 / (s.XL_VOL_WEIGHT_LIMIT_OUT : ℚ)⌋ :=
        one_le_chunks w2 _ hL0 a2
      have hk' : (1 : ℚ) ≤ (⌊w2 / (s.XL_VOL_WEIGHT_LIMIT_OUT : ℚ)⌋ : ℚ) := by
        exact_mod_cast hk
      have hT := refTiersFee_nonneg s.S_RATE_OUT s.M_RATE_OUT s.L_RATE_OUT h0 hsm hml
        (w2 - (⌊w2 / (s.XL_VOL_WEIGHT_LIMIT_OUT : ℚ)⌋ : ℚ) * (s.XL_VOL_WEIGHT_LIMIT_OUT : ℚ))
      have := mul_le_mul_of_nonneg_right hk' hxl0
      linarith
  · rw [if_neg a1]
    push_neg at a1
    have a2 : ¬ w2 < (s.XL_VOL_WEIGHT_LIMIT_OUT : ℚ) := not_lt.mpr (le_trans a1 hw)
    rw [if_neg a2]
    have hres1 := chunk_residue_bounds w1 _ hL0
    have hres2 := chunk_residue_bounds w2 _ hL0
    have hk : ⌊w1 / (s.XL_VOL_WEIGHT_LIMIT_OUT : ℚ)⌋
        ≤ ⌊w2 / (s.XL_VOL_WEIGHT_LIMIT_OUT : ℚ)⌋ :=
      Int.floor_le_floor (by gcongr)
    rcases eq_or_lt_of_le hk with hkeq | hklt
    · rw [hkeq]
      rw [hkeq] at hres1
      have harg : w1 - (⌊w2 / (s.XL_VOL_WEIGHT_LIMIT_OUT : ℚ)⌋ : ℚ)
            * (s.XL_VOL_WEIGHT_LIMIT_OUT : ℚ)
          ≤ w2 - (⌊w2 / (s.XL_VOL_WEIGHT_LIMIT_OUT : ℚ)⌋ : ℚ)
            * (s.XL_VOL_WEIGHT_LIMIT_OUT : ℚ) := by linarith
      have := refTiersFee_mono s.S_RATE_OUT s.M_RATE_OUT s.L_RATE_OUT h0 hsm hml _ _ harg
      linarith
    · have hT1 := refTiersFee_le_xl s.S_RATE_OUT s.M_RATE_OUT s.L_RATE_OUT s.XL_RATE_OUT
        s.XL_VOL_WEIGHT_LIMIT_OUT h0 hsm hml hlx hlim hbound
        (w1 - (⌊w1 / (s.XL_VOL_WEIGHT_LIMIT_OUT : ℚ)⌋ : ℚ) * (s.XL_VOL_WEIGHT_LIMIT_OUT : ℚ))
        hres1.2
      have hT2 := refTiersFee_nonneg s.S_RATE_OUT s.M_RATE_OUT s.L_RATE_OUT h0 hsm hml
        (w2 - (⌊w2 / (s.XL_VOL_WEIGHT_LIMIT_OUT : ℚ)⌋ : ℚ) * (s.XL_VOL_WEIGHT_LIMIT_OUT : ℚ))
      have hk1 : (⌊w1 / (s.XL_VOL_WEIGHT_LIMIT_OUT : ℚ)⌋ : ℚ) + 1
          ≤ (⌊w2 / (s.XL_VOL_WEIGHT_LIMIT_OUT : ℚ)⌋ : ℚ) := by
        exact_mod_cast Int.add_one_le_iff.mpr hklt
      have := mul_le_mul_of_nonneg_right hk1 hxl0
      linarith

/-- Amended C6: outbound pricing is monotone for every schedule with the
reference tier boundaries (5/15/55), non-decreasing non-negative rates
`S ≤ M ≤ L ≤ XL`, a positive large-order limit, and an XL chunk rate at
least as large as any tiered remainder fee
(`(⌈limit/55⌉ − 1)·L_RATE + M_RATE ≤ XL_RATE`).  Without the last bound the
claim fails (see the counterexample). -/
theorem compute_outbound_monotone (s : OutSettings) (w1 w2 : ℚ)
    (hS : s.S_VOL_WEIGHT_LIMIT_OUT = 5)
    (hM : s.M_VOL_WEIGHT_LIMIT_OUT = 15)
    (hL : s.L_VOL_WEIGHT_LIMIT_OUT = 55)
    (h0 : 0 ≤ s.S_RATE_OUT) (hsm : s.S_RATE_OUT ≤ s.M_RATE_OUT)
    (hml : s.M_RATE_OUT ≤ s.L_RATE_OUT) (hlx : s.L_RATE_OUT ≤ s.XL_RATE_OUT)
    (hlim : 0 < s.XL_VOL_WEIGHT_LIMIT_OUT)
    (hbound : ((⌈(s.XL_VOL_WEIGHT_LIMIT_OUT : ℚ) / 55⌉ - 1 : ℤ) : ℚ) * s.L_RATE_OUT
        + s.M_RATE_OUT ≤ s.XL_RATE_OUT)
    (hw0 : 0 ≤ w1) (hw : w1 ≤ w2) :
    ∃ f1 f2, compute_outbound w1 s = some f1 ∧ compute_outbound w2 s = some f2
      ∧ f1 ≤ f2 :=
  ⟨outbound_total w1 s, outbound_total w2 s,
    compute_outbound_eq_total s hS hM hL w1,
    compute_outbound_eq_total s hS hM hL w2,
    outbound_total_mono s h0 hsm hml hlx hlim hbound w1 w2 hw0 hw⟩

/-- Witness for the amended C6 at `refOutSettings`, weights 10 ≤ 20. -/
theorem compute_outbound_monotone_witness :
    ∃ f1 f2, compute_outbound 10 refOutSettings = some f1
      ∧ compute_outbound 20 refOutSettings = some f2 ∧ f1 ≤ f2 :=
  compute_outbound_monotone refOutSettings 10 20 (by decide) (by decide) (by decide)
    (by norm_num [refOutSettings, refSettings])
    (by norm_num [refOutSettings, refSettings])
    (by norm_num [refOutSettings, refSettings])
    (by norm_num [refOutSettings, refSettings])
    (by decide)
    (by rw [show (refOutSettings.XL_VOL_WEIGHT_LIMIT_OUT : ℚ) = 55 by
          norm_num [refOutSettings, refSettings],
        show (55 : ℚ) / 55 = 1 by norm_num, Int.ceil_one]
        norm_num [refOutSettings, refSettings])
    (by norm_num) (by norm_num)

/-- Counterexample to C6 as stated: under `monoCexSettings` (ascending
rates 1 ≤ 2 ≤ 10 ≤ 10, limit 120) the fee drops from 22 at weight 229
(one chunk plus remainder 109 priced L+L+M = 12) to 20 at weight 240
(two plain chunks). -/
theorem compute_outbound_not_monotone_cex :
    (0 : ℚ) ≤ 229 ∧ (229 : ℚ) ≤ 240
  ∧ compute_outbound 229 monoCexSettings = some 22
  ∧ compute_outbound 240 monoCexSettings = some 20
  ∧ ¬ ((22 : ℚ) ≤ 20) := by
  have hlim : (monoCexSettings.XL_VOL_WEIGHT_LIMIT_OUT : ℚ) = 120 := by
    norm_num [monoCexSettings, refSettings]
  refine ⟨by norm_num, by norm_num, ?_, ?_, by norm_num⟩
  · rw [compute_outbound_eq_total monoCexSettings (by decide) (by decide) (by decide) 229]
    congr 1
    unfold outbound_total
    rw [hlim, if_neg (by norm_num),
      floor_eval ((229 : ℚ) / 120) 1 (by norm_num) (by norm_num)]
    push_cast
    rw [show (229 : ℚ) - 1 * 120 = 109 by norm_num]
    unfold refTiersFee
    rw [if_neg (by norm_num),
      floor_eval ((109 : ℚ) / 55) 1 (by norm_num) (by norm_num)]
    push_cast
    rw [show (109 : ℚ) - 55 * 1 = 54 by norm_num]
    unfold refTail
    rw [if_neg (by norm_num), if_neg (by norm_num)]
    norm_num [monoCexSettings, refSettings]
  · rw [compute_outbound_eq_total monoCexSettings (by decide) (by decide) (by decide) 240]
    congr 1
    unfold outbound_total
    rw [hlim, if_neg (by norm_num),
      floor_eval ((240 : ℚ) / 120) 2 (by norm_num) (by norm_num)]
    push_cast
    rw [show (240 : ℚ) - 2 * 120 = 0 by norm_num,
      refTiersFee_nonpos _ _ _ 0 le_rfl]
    norm_num [monoCexSettings, refSettings]

end RatesSim
